import Mathlib

/-!
Shallow embedding of the `animator` library (src/src/index.ts).

Times are wall-clock milliseconds modelled as rationals (`Date.now()` values
and deltas). Handlers are opaque identifiers (`Nat`); invoking a handler is
recorded in an output trace (`Fire`) instead of running a callback, and the
`requestAnimationFrame` call made by a tick is recorded as `Fire.resched`
in the same trace.
-/

namespace Animator

/-- `MAX_FPS = 60` (src/src/index.ts line 27). -/
def MAX_FPS : ℚ := 60

/-- Constructor parameters `AnimatorParams` (line 9): `fps` is an optional
number; `pauseOnHidden` and `resumeOnShown` default to `true`. -/
structure AnimatorParams where
  fps : Option ℚ := none
  pauseOnHidden : Bool := true
  resumeOnShown : Bool := true
deriving DecidableEq, Repr

/-- The private fields of `class Animator` (lines 78-113). Subscriber
lists hold opaque handler identifiers. -/
structure State where
  targetFPS : ℚ
  pauseOnHidden : Bool
  resumeOnShown : Bool
  ignoreTargetFPS : Bool
  performingFPS : ℚ
  startTime : ℚ
  previousAnimateTime : ℚ
  isPaused : Bool
  isPauseRequested : Bool
  animateEvents : List ℕ
  startEvents : List ℕ
  pauseEvents : List ℕ
  resumeEvents : List ℕ
  stopEvents : List ℕ
deriving DecidableEq, Repr

/-- Observable effects of an operation: handler invocations (with the
delta for frame handlers) and `requestAnimationFrame` calls. -/
inductive Fire where
  | frame (h : ℕ) (delta : ℚ)
  | start (h : ℕ)
  | pause (h : ℕ)
  | resume (h : ℕ)
  | stop (h : ℕ)
  | resched
deriving DecidableEq, Repr

/-- The constructor (lines 115-126): `targetFPS = fps ? fps : MAX_FPS`
(a JS number is falsy exactly when it is 0, NaN aside);
`ignoreTargetFPS = !fps`; all other fields take their initializers. -/
def mkAnimator (p : AnimatorParams) : State where
  targetFPS :=
    match p.fps with
    | some f => if f = 0 then MAX_FPS else f
    | none => MAX_FPS
  pauseOnHidden := p.pauseOnHidden
  resumeOnShown := p.resumeOnShown
  ignoreTargetFPS :=
    match p.fps with
    | some f => decide (f = 0)
    | none => true
  performingFPS := 0
  startTime := 0
  previousAnimateTime := 0
  isPaused := false
  isPauseRequested := false
  animateEvents := []
  startEvents := []
  pauseEvents := []
  resumeEvents := []
  stopEvents := []

/-- `removeEvent` (lines 133-139): `indexOf` then `splice(index, 1)`
removes the first occurrence by identity; when `indexOf` yields `-1`
(handler absent) the list is left unchanged. -/
def removeEvent (e : ℕ) : List ℕ → List ℕ
  | [] => []
  | x :: xs => if x = e then xs else x :: removeEvent e xs

/-- `addEvent` (lines 128-131): push onto the list. The returned
unsubscribe closure is `removeEvent e` on the same registry. -/
def addEvent (e : ℕ) (events : List ℕ) : List ℕ :=
  events ++ [e]

/-- One iteration `animate()` (lines 156-178), invoked by the frame clock
at wall-clock time `now`. Inside the Running guard it first requests the
next frame, then fires frame subscribers iff `ignoreTargetFPS` or
`delta >= 1000 / targetFPS`. -/
def animate (now : ℚ) (a : State) : State × List Fire :=
  if 0 < a.targetFPS ∧ a.isPaused = false ∧ 0 < a.startTime then
    let delta := now - a.previousAnimateTime
    let delay := 1000 / a.targetFPS
    if a.ignoreTargetFPS = true ∨ delay ≤ delta then
      ({ a with
          performingFPS := 1000 / delta
          previousAnimateTime := now },
        Fire.resched :: a.animateEvents.map (fun h => Fire.frame h delta))
    else
      (a, [Fire.resched])
  else
    (a, [])

/-- `start()` (lines 232-247) at wall-clock time `t`: only when
`startTime === 0`, record both timestamps, fire start subscribers, then
run one `animate()` iteration synchronously. -/
def start (t : ℚ) (a : State) : State × List Fire :=
  if a.startTime = 0 then
    let a1 := { a with startTime := t, previousAnimateTime := t }
    let r := animate t a1
    (r.1, a.startEvents.map Fire.start ++ r.2)
  else
    (a, [])

/-- `pause()` (lines 252-257): only when started and not yet paused. -/
def pause (a : State) : State × List Fire :=
  if 0 < a.startTime ∧ a.isPaused = false then
    ({ a with isPaused := true }, a.pauseEvents.map Fire.pause)
  else
    (a, [])

/-- `resume()` (lines 262-273) at wall-clock time `t`: only when not
externally pause-requested and currently paused; fires resume
subscribers, resets `previousAnimateTime` to now, re-runs `animate()`. -/
def resume (t : ℚ) (a : State) : State × List Fire :=
  if a.isPauseRequested = false ∧ a.isPaused = true then
    let a1 := { a with isPaused := false, previousAnimateTime := t }
    let r := animate t a1
    (r.1, a.resumeEvents.map Fire.resume ++ r.2)
  else
    (a, [])

/-- `stop()` (lines 278-284): only when started; clears `startTime` and
`isPaused`, fires stop subscribers. -/
def stop (a : State) : State × List Fire :=
  if 0 < a.startTime then
    ({ a with startTime := 0, isPaused := false }, a.stopEvents.map Fire.stop)
  else
    (a, [])

/-- `onHidden()` (lines 141-146): if `pauseOnHidden`, set the external
pause request flag, then pause. -/
def onHidden (a : State) : State × List Fire :=
  if a.pauseOnHidden = true then
    pause { a with isPauseRequested := true }
  else
    (a, [])

/-- `onShow()` (lines 148-153) at wall-clock time `t`: if `resumeOnShown`,
clear the external pause request flag, then resume. -/
def onShow (t : ℚ) (a : State) : State × List Fire :=
  if a.resumeOnShown = true then
    resume t { a with isPauseRequested := false }
  else
    (a, [])

/-- `setTargetFPS` (lines 200-202): `targetFPS = Math.min(fps, MAX_FPS)`. -/
def setTargetFPS (fps : ℚ) (a : State) : State :=
  { a with targetFPS := min fps MAX_FPS }

/-- `setPauseOnHidden` (lines 217-219). -/
def setPauseOnHidden (b : Bool) (a : State) : State :=
  { a with pauseOnHidden := b }

/-- `setResumeOnShown` (lines 225-227). -/
def setResumeOnShown (b : Bool) (a : State) : State :=
  { a with resumeOnShown := b }

/-- `add` (lines 209-211): subscribe a frame handler. -/
def add (e : ℕ) (a : State) : State :=
  { a with animateEvents := addEvent e a.animateEvents }

/-- `onStart` (lines 291-293). -/
def onStartSub (e : ℕ) (a : State) : State :=
  { a with startEvents := addEvent e a.startEvents }

/-- `onPause` (lines 300-302). -/
def onPauseSub (e : ℕ) (a : State) : State :=
  { a with pauseEvents := addEvent e a.pauseEvents }

/-- `onResume` (lines 309-311). -/
def onResumeSub (e : ℕ) (a : State) : State :=
  { a with resumeEvents := addEvent e a.resumeEvents }

/-- `onStop` (lines 318-320). -/
def onStopSub (e : ℕ) (a : State) : State :=
  { a with stopEvents := addEvent e a.stopEvents }

/-- `startAnimation` (lines 323-330) at wall-clock time `t`: construct,
subscribe the frame handler, start. -/
def startAnimation (h : ℕ) (t : ℚ) (p : AnimatorParams) : State × List Fire :=
  start t (add h (mkAnimator p))

/-- A concrete Running state used by witnesses: target 30 fps with the
rate cap ignored, started at time 5, one frame subscriber `7`. -/
def sampleRunning : State where
  targetFPS := 30
  pauseOnHidden := true
  resumeOnShown := true
  ignoreTargetFPS := true
  performingFPS := 0
  startTime := 5
  previousAnimateTime := 5
  isPaused := false
  isPauseRequested := false
  animateEvents := [7]
  startEvents := []
  pauseEvents := []
  resumeEvents := []
  stopEvents := []

/-- Helper: a tick of a Running animator whose fire condition holds. -/
theorem animate_fire_eq (a : State) (now : ℚ)
    (hg : 0 < a.targetFPS ∧ a.isPaused = false ∧ 0 < a.startTime)
    (hc : a.ignoreTargetFPS = true ∨ 1000 / a.targetFPS ≤ now - a.previousAnimateTime) :
    animate now a =
      ({ a with
          performingFPS := 1000 / (now - a.previousAnimateTime)
          previousAnimateTime := now },
        Fire.resched ::
          a.animateEvents.map (fun h => Fire.frame h (now - a.previousAnimateTime))) := by
  simp only [animate, if_pos hg, if_pos hc]

/-- Helper: a tick of a Running animator whose fire condition fails only
reschedules. -/
theorem animate_skip_eq (a : State) (now : ℚ)
    (hg : 0 < a.targetFPS ∧ a.isPaused = false ∧ 0 < a.startTime)
    (hc : ¬ (a.ignoreTargetFPS = true ∨ 1000 / a.targetFPS ≤ now - a.previousAnimateTime)) :
    animate now a = (a, [Fire.resched]) := by
  simp only [animate, if_pos hg, if_neg hc]

/-- Helper: a tick outside the Running guard does nothing at all. -/
theorem animate_idle_eq (a : State) (now : ℚ)
    (hg : ¬ (0 < a.targetFPS ∧ a.isPaused = false ∧ 0 < a.startTime)) :
    animate now a = (a, []) := by
  simp only [animate, if_neg hg]

/-- Helper: `animate` never changes the lifecycle and policy fields. -/
theorem animate_fields_eq (a : State) (now : ℚ) :
    (animate now a).1.startTime = a.startTime ∧
    (animate now a).1.isPaused = a.isPaused ∧
    (animate now a).1.isPauseRequested = a.isPauseRequested ∧
    (animate now a).1.targetFPS = a.targetFPS ∧
    (animate now a).1.ignoreTargetFPS = a.ignoreTargetFPS ∧
    (animate now a).1.animateEvents = a.animateEvents := by
  by_cases hg : 0 < a.targetFPS ∧ a.isPaused = false ∧ 0 < a.startTime
  · by_cases hc : a.ignoreTargetFPS = true ∨ 1000 / a.targetFPS ≤ now - a.previousAnimateTime
    · rw [animate_fire_eq a now hg hc]
      exact ⟨rfl, rfl, rfl, rfl, rfl, rfl⟩
    · rw [animate_skip_eq a now hg hc]
      exact ⟨rfl, rfl, rfl, rfl, rfl, rfl⟩
  · rw [animate_idle_eq a now hg]
    exact ⟨rfl, rfl, rfl, rfl, rfl, rfl⟩

/-- Helper: a tick either leaves `previousAnimateTime` alone or sets it
to `now`. -/
theorem animate_prev_eq (a : State) (now : ℚ) :
    (animate now a).1.previousAnimateTime = a.previousAnimateTime ∨
    (animate now a).1.previousAnimateTime = now := by
  by_cases hg : 0 < a.targetFPS ∧ a.isPaused = false ∧ 0 < a.startTime
  · by_cases hc : a.ignoreTargetFPS = true ∨ 1000 / a.targetFPS ≤ now - a.previousAnimateTime
    · rw [animate_fire_eq a now hg hc]
      exact Or.inr rfl
    · rw [animate_skip_eq a now hg hc]
      exact Or.inl rfl
  · rw [animate_idle_eq a now hg]
    exact Or.inl rfl

/-- Helper: a tick inside the Running guard always requests the next
frame. -/
theorem animate_resched_mem (a : State) (now : ℚ)
    (hg : 0 < a.targetFPS ∧ a.isPaused = false ∧ 0 < a.startTime) :
    Fire.resched ∈ (animate now a).2 := by
  by_cases hc : a.ignoreTargetFPS = true ∨ 1000 / a.targetFPS ≤ now - a.previousAnimateTime
  · rw [animate_fire_eq a now hg hc]
    exact List.mem_cons_self _ _
  · rw [animate_skip_eq a now hg hc]
    exact List.mem_singleton.mpr rfl

/-- C1: On every tick of a Running animator (started, not paused, target
rate positive), frame subscribers fire iff `ignoreTargetFPS` is true or
`delta = now - previousAnimateTime >= 1000 / targetFPS`; on fire the
measured rate becomes `1000 / delta`, every frame subscriber is invoked in
registration order with `delta`, and `previousAnimateTime` becomes `now`;
otherwise the state (in particular `previousAnimateTime`) is unchanged. -/
theorem animate_fire_iff (a : State) (now : ℚ)
    (hfps : 0 < a.targetFPS) (hp : a.isPaused = false) (hs : 0 < a.startTime) :
    (a.ignoreTargetFPS = true ∨ 1000 / a.targetFPS ≤ now - a.previousAnimateTime →
      animate now a =
        ({ a with
            performingFPS := 1000 / (now - a.previousAnimateTime)
            previousAnimateTime := now },
          Fire.resched ::
            a.animateEvents.map (fun h => Fire.frame h (now - a.previousAnimateTime)))) ∧
    (¬ (a.ignoreTargetFPS = true ∨ 1000 / a.targetFPS ≤ now - a.previousAnimateTime) →
      animate now a = (a, [Fire.resched])) :=
  ⟨fun hcond => animate_fire_eq a now ⟨hfps, hp, hs⟩ hcond,
   fun hcond => animate_skip_eq a now ⟨hfps, hp, hs⟩ hcond⟩

theorem animate_fire_iff_witness :
    animate 100 sampleRunning =
      ({ sampleRunning with
          performingFPS := 1000 / (100 - sampleRunning.previousAnimateTime)
          previousAnimateTime := 100 },
        Fire.resched ::
          sampleRunning.animateEvents.map
            (fun h => Fire.frame h (100 - sampleRunning.previousAnimateTime))) :=
  (animate_fire_iff sampleRunning 100 (by decide) rfl (by decide)).1
    (Or.inl rfl)

/-- A started, un-paused state whose target rate is 0. -/
def sampleZeroFPS : State :=
  { sampleRunning with targetFPS := 0, ignoreTargetFPS := false }

/-- C3 counterexample: with a target rate of 0 on a started, un-paused
animator, a tick does not request the next frame at all (its trace is
empty, with no `Fire.resched`), so the self-rescheduling chain halts —
refuting the claim that the chain keeps running. -/
theorem zero_fps_keeps_ticking_cex :
    sampleZeroFPS.targetFPS = 0 ∧
    sampleZeroFPS.isPaused = false ∧
    0 < sampleZeroFPS.startTime ∧
    (animate 10 sampleZeroFPS).2 = [] ∧
    Fire.resched ∉ (animate 10 sampleZeroFPS).2 := by
  have h4 : (animate 10 sampleZeroFPS).2 = [] := rfl
  exact ⟨rfl, rfl, by decide, h4, by rw [h4]; simp⟩

/-- C3 amended: when the target rate is zero or negative, a tick of a
started, un-paused animator fires no subscribers and does not request the
next tick either — the whole tick body is skipped, halting the
self-rescheduling chain while leaving the lifecycle state unchanged. -/
theorem zero_fps_tick_halts (a : State) (now : ℚ) (hfps : a.targetFPS ≤ 0) :
    animate now a = (a, []) := by
  refine animate_idle_eq a now ?_
  rintro ⟨h1, -, -⟩
  exact absurd h1 (not_lt.mpr hfps)

theorem zero_fps_tick_halts_witness :
    sampleZeroFPS.targetFPS ≤ 0 ∧ animate 10 sampleZeroFPS = (sampleZeroFPS, []) :=
  ⟨by decide, zero_fps_tick_halts sampleZeroFPS 10 (by decide)⟩

/-- C2 counterexample: the constructor performs no clamping — requesting
100 fps stores a target rate of 100, above the fixed maximum of 60. -/
theorem constructor_unclamped_cex :
    (0 : ℚ) < 100 ∧
    (mkAnimator { fps := some 100 }).targetFPS = 100 ∧
    ¬ (mkAnimator { fps := some 100 }).targetFPS ≤ 60 := by
  refine ⟨by decide, rfl, ?_⟩
  show ¬ (100 : ℚ) ≤ 60
  decide

/-- C2 amended: only `setTargetFPS` clamps — after any call to it the
stored target rate is `min rate 60`, hence at most 60, and no call ever
errors; the constructor stores any non-zero `fps` argument as-is,
without clamping. -/
theorem targetFPS_clamp_amended (r f : ℚ) (ph rs : Bool) (a : State) (hf : f ≠ 0) :
    (setTargetFPS r a).targetFPS = min r MAX_FPS ∧
    (setTargetFPS r a).targetFPS ≤ 60 ∧
    (mkAnimator { fps := some f, pauseOnHidden := ph, resumeOnShown := rs }).targetFPS = f := by
  refine ⟨rfl, min_le_right r 60, ?_⟩
  simp only [mkAnimator, if_neg hf]

theorem targetFPS_clamp_amended_witness :
    (setTargetFPS 100 sampleRunning).targetFPS = min 100 MAX_FPS ∧
    (setTargetFPS 100 sampleRunning).targetFPS ≤ 60 ∧
    (mkAnimator { fps := some 100, pauseOnHidden := true, resumeOnShown := true }).targetFPS = 100 :=
  targetFPS_clamp_amended 100 100 true true sampleRunning (by decide)

/-- State obtained by constructing with no `fps` (so the rate cap is
ignored), retargeting to 30 fps via `setTargetFPS`, subscribing frame
handler `7`, and starting at time 5. -/
def sampleRetargeted : State :=
  (start 5 (add 7 (setTargetFPS 30 (mkAnimator {})))).1

/-- C4 counterexample: `setTargetFPS` leaves `ignoreTargetFPS` untouched.
Constructed with the cap ignored and retargeted to 30 fps, the flag is
still set, and a tick only `6 - 5 = 1` ms after the previous fire — far
less than the 1000/30 ms minimum interval — still fires the frame
subscriber, so firing is not governed by the elapsed-time check. -/
theorem setTargetFPS_ignore_cex :
    (mkAnimator {}).ignoreTargetFPS = true ∧
    (setTargetFPS 30 (mkAnimator {})).ignoreTargetFPS = true ∧
    (setTargetFPS 30 (mkAnimator {})).targetFPS = 30 ∧
    sampleRetargeted.previousAnimateTime = 5 ∧
    (animate 6 sampleRetargeted).2 = [Fire.resched, Fire.frame 7 (6 - 5)] ∧
    (6 : ℚ) - 5 < 1000 / 30 := by
  refine ⟨rfl, rfl, rfl, rfl, rfl, by norm_num⟩

/-- C4 amended: `setTargetFPS rate` updates the target rate to
`min rate 60` (clamped) and changes nothing else — in particular the
ignore-rate-cap flag keeps its previous value, so subscriber firing is
governed by the elapsed-time check only if that flag was already
cleared. -/
theorem setTargetFPS_amended (r : ℚ) (a : State) :
    setTargetFPS r a = { a with targetFPS := min r MAX_FPS } ∧
    (setTargetFPS r a).ignoreTargetFPS = a.ignoreTargetFPS ∧
    (setTargetFPS r a).targetFPS ≤ MAX_FPS :=
  ⟨rfl, rfl, min_le_right r MAX_FPS⟩

/-- C10: constructing with `fps = 0` (falsy) is indistinguishable from
omitting `fps`: the target rate is 60 and the ignore-rate-cap flag is
set — and with that flag set, every tick of a started, un-paused animator
with positive target rate fires all frame subscribers. -/
theorem fps_zero_constructor (ph rs : Bool) (now : ℚ) (a : State)
    (hi : a.ignoreTargetFPS = true) (hfps : 0 < a.targetFPS)
    (hp : a.isPaused = false) (hs : 0 < a.startTime) :
    mkAnimator { fps := some 0, pauseOnHidden := ph, resumeOnShown := rs } =
      mkAnimator { fps := none, pauseOnHidden := ph, resumeOnShown := rs } ∧
    (mkAnimator { fps := some 0, pauseOnHidden := ph, resumeOnShown := rs }).targetFPS = 60 ∧
    (mkAnimator { fps := some 0, pauseOnHidden := ph, resumeOnShown := rs }).ignoreTargetFPS = true ∧
    (animate now a).2 =
      Fire.resched ::
        a.animateEvents.map (fun h => Fire.frame h (now - a.previousAnimateTime)) := by
  refine ⟨rfl, rfl, rfl, ?_⟩
  rw [animate_fire_eq a now ⟨hfps, hp, hs⟩ (Or.inl hi)]

theorem fps_zero_constructor_witness :
    mkAnimator { fps := some 0, pauseOnHidden := true, resumeOnShown := true } =
      mkAnimator { fps := none, pauseOnHidden := true, resumeOnShown := true } ∧
    (mkAnimator { fps := some 0, pauseOnHidden := true, resumeOnShown := true }).targetFPS = 60 ∧
    (mkAnimator { fps := some 0, pauseOnHidden := true, resumeOnShown := true }).ignoreTargetFPS = true ∧
    (animate 100 sampleRunning).2 =
      Fire.resched ::
        sampleRunning.animateEvents.map
          (fun h => Fire.frame h (100 - sampleRunning.previousAnimateTime)) :=
  fps_zero_constructor true true 100 sampleRunning rfl (by decide) rfl (by decide)

/-- A concrete explicitly-paused state: `sampleRunning` with `isPaused`
set and one resume subscriber `3`. -/
def samplePaused : State :=
  { sampleRunning with isPaused := true, resumeEvents := [3] }

/-- C5: `resume()` is a no-op while `isPauseRequested` is true or while
not paused. On a genuine Paused → Running transition it clears
`isPaused`, leaves `previousAnimateTime` equal to the current time, fires
the resume subscribers first (in registration order), and, when the
animator can run (positive rate, started), requests the next frame.
Moreover no lifecycle operation or tick ever changes `isPauseRequested`:
only the visibility handlers do, and `onShow` (with `resumeOnShown`)
clears it. -/
theorem resume_spec (a : State) (t : ℚ) :
    (a.isPauseRequested = true → resume t a = (a, [])) ∧
    (a.isPaused = false → resume t a = (a, [])) ∧
    (a.isPauseRequested = false → a.isPaused = true →
      (resume t a).1.isPaused = false ∧
      (resume t a).1.previousAnimateTime = t ∧
      (resume t a).2.take a.resumeEvents.length = a.resumeEvents.map Fire.resume ∧
      (0 < a.targetFPS → 0 < a.startTime → Fire.resched ∈ (resume t a).2)) ∧
    ((start t a).1.isPauseRequested = a.isPauseRequested ∧
     (pause a).1.isPauseRequested = a.isPauseRequested ∧
     (resume t a).1.isPauseRequested = a.isPauseRequested ∧
     (stop a).1.isPauseRequested = a.isPauseRequested ∧
     (animate t a).1.isPauseRequested = a.isPauseRequested) ∧
    (a.resumeOnShown = true → (onShow t a).1.isPauseRequested = false) := by
  have hresume : ∀ b : State, (resume t b).1.isPauseRequested = b.isPauseRequested := by
    intro b
    by_cases h0 : b.isPauseRequested = false ∧ b.isPaused = true
    · simp only [resume, if_pos h0]
      exact (animate_fields_eq _ t).2.2.1
    · simp only [resume, if_neg h0]
  have hstart : (start t a).1.isPauseRequested = a.isPauseRequested := by
    by_cases h0 : a.startTime = 0
    · simp only [start, if_pos h0]
      exact (animate_fields_eq _ t).2.2.1
    · simp only [start, if_neg h0]
  have hpause : (pause a).1.isPauseRequested = a.isPauseRequested := by
    by_cases h0 : 0 < a.startTime ∧ a.isPaused = false
    · simp only [pause, if_pos h0]
    · simp only [pause, if_neg h0]
  have hstop : (stop a).1.isPauseRequested = a.isPauseRequested := by
    by_cases h0 : 0 < a.startTime
    · simp only [stop, if_pos h0]
    · simp only [stop, if_neg h0]
  refine ⟨?_, ?_, ?_, ⟨hstart, hpause, hresume a, hstop, (animate_fields_eq a t).2.2.1⟩, ?_⟩
  · intro h
    have hg : ¬ (a.isPauseRequested = false ∧ a.isPaused = true) := by
      rintro ⟨h1, -⟩
      rw [h] at h1
      exact Bool.noConfusion h1
    simp only [resume, if_neg hg]
  · intro h
    have hg : ¬ (a.isPauseRequested = false ∧ a.isPaused = true) := by
      rintro ⟨-, h2⟩
      rw [h] at h2
      exact Bool.noConfusion h2
    simp only [resume, if_neg hg]
  · intro hreq hp
    have hg : a.isPauseRequested = false ∧ a.isPaused = true := ⟨hreq, hp⟩
    have hres : resume t a =
        ((animate t { a with isPaused := false, previousAnimateTime := t }).1,
          a.resumeEvents.map Fire.resume ++
            (animate t { a with isPaused := false, previousAnimateTime := t }).2) := by
      simp only [resume, if_pos hg]
    refine ⟨?_, ?_, ?_, ?_⟩
    · rw [hres]
      exact (animate_fields_eq _ t).2.1
    · rw [hres]
      rcases animate_prev_eq { a with isPaused := false, previousAnimateTime := t } t with h | h
      · exact h
      · exact h
    · rw [hres]
      have hlen : a.resumeEvents.length = (a.resumeEvents.map Fire.resume).length :=
        (List.length_map _ _).symm
      rw [hlen]
      exact List.take_left _ _
    · intro h1 h2
      rw [hres]
      exact List.mem_append_right _ (animate_resched_mem _ t ⟨h1, rfl, h2⟩)
  · intro hshown
    simp only [onShow, if_pos hshown]
    exact hresume { a with isPauseRequested := false }

theorem resume_spec_witness :
    (resume 100 samplePaused).1.isPaused = false ∧
    (resume 100 samplePaused).1.previousAnimateTime = 100 ∧
    (resume 100 samplePaused).2.take samplePaused.resumeEvents.length =
      samplePaused.resumeEvents.map Fire.resume ∧
    Fire.resched ∈ (resume 100 samplePaused).2 := by
  have h := (resume_spec samplePaused 100).2.2.1 rfl rfl
  exact ⟨h.1, h.2.1, h.2.2.1, h.2.2.2 (by decide) (by decide)⟩

/-- The states an animator can be in: freshly constructed, or the result
of any public operation, visibility handler, unsubscribe closure or tick
applied to a reachable state. -/
inductive Reachable : State → Prop where
  | init (p : AnimatorParams) : Reachable (mkAnimator p)
  | ofStart (t : ℚ) {a : State} : Reachable a → Reachable (start t a).1
  | ofPause {a : State} : Reachable a → Reachable (pause a).1
  | ofResume (t : ℚ) {a : State} : Reachable a → Reachable (resume t a).1
  | ofStop {a : State} : Reachable a → Reachable (stop a).1
  | ofAnimate (t : ℚ) {a : State} : Reachable a → Reachable (animate t a).1
  | ofHidden {a : State} : Reachable a → Reachable (onHidden a).1
  | ofShow (t : ℚ) {a : State} : Reachable a → Reachable (onShow t a).1
  | ofSetTargetFPS (r : ℚ) {a : State} : Reachable a → Reachable (setTargetFPS r a)
  | ofSetPauseOnHidden (b : Bool) {a : State} : Reachable a → Reachable (setPauseOnHidden b a)
  | ofSetResumeOnShown (b : Bool) {a : State} : Reachable a → Reachable (setResumeOnShown b a)
  | ofAdd (e : ℕ) {a : State} : Reachable a → Reachable (add e a)
  | ofOnStartSub (e : ℕ) {a : State} : Reachable a → Reachable (onStartSub e a)
  | ofOnPauseSub (e : ℕ) {a : State} : Reachable a → Reachable (onPauseSub e a)
  | ofOnResumeSub (e : ℕ) {a : State} : Reachable a → Reachable (onResumeSub e a)
  | ofOnStopSub (e : ℕ) {a : State} : Reachable a → Reachable (onStopSub e a)
  | ofUnsubAnimate (e : ℕ) {a : State} :
      Reachable a → Reachable { a with animateEvents := removeEvent e a.animateEvents }
  | ofUnsubStart (e : ℕ) {a : State} :
      Reachable a → Reachable { a with startEvents := removeEvent e a.startEvents }
  | ofUnsubPause (e : ℕ) {a : State} :
      Reachable a → Reachable { a with pauseEvents := removeEvent e a.pauseEvents }
  | ofUnsubResume (e : ℕ) {a : State} :
      Reachable a → Reachable { a with resumeEvents := removeEvent e a.resumeEvents }
  | ofUnsubStop (e : ℕ) {a : State} :
      Reachable a → Reachable { a with stopEvents := removeEvent e a.stopEvents }

/-- Helper: `start` preserves the pause invariant. -/
theorem inv_pres_start (t : ℚ) (a : State)
    (ih : a.isPaused = true → a.startTime ≠ 0) :
    (start t a).1.isPaused = true → (start t a).1.startTime ≠ 0 := by
  by_cases h0 : a.startTime = 0
  · intro hp
    have h1 : (start t a).1.isPaused = a.isPaused := by
      simp only [start, if_pos h0]
      exact (animate_fields_eq _ t).2.1
    rw [h1] at hp
    exact absurd h0 (ih hp)
  · simp only [start, if_neg h0]
    exact ih

/-- Helper: `pause` preserves the pause invariant. -/
theorem inv_pres_pause (a : State)
    (ih : a.isPaused = true → a.startTime ≠ 0) :
    (pause a).1.isPaused = true → (pause a).1.startTime ≠ 0 := by
  by_cases h0 : 0 < a.startTime ∧ a.isPaused = false
  · simp only [pause, if_pos h0]
    intro _
    exact ne_of_gt h0.1
  · simp only [pause, if_neg h0]
    exact ih

/-- Helper: `resume` preserves the pause invariant. -/
theorem inv_pres_resume (t : ℚ) (a : State)
    (ih : a.isPaused = true → a.startTime ≠ 0) :
    (resume t a).1.isPaused = true → (resume t a).1.startTime ≠ 0 := by
  by_cases h0 : a.isPauseRequested = false ∧ a.isPaused = true
  · intro hp
    have h1 : (resume t a).1.isPaused = false := by
      simp only [resume, if_pos h0]
      exact (animate_fields_eq _ t).2.1
    rw [h1] at hp
    exact Bool.noConfusion hp
  · simp only [resume, if_neg h0]
    exact ih

/-- Helper: `stop` preserves the pause invariant. -/
theorem inv_pres_stop (a : State)
    (ih : a.isPaused = true → a.startTime ≠ 0) :
    (stop a).1.isPaused = true → (stop a).1.startTime ≠ 0 := by
  by_cases h0 : 0 < a.startTime
  · simp only [stop, if_pos h0]
    intro hp
    exact Bool.noConfusion hp
  · simp only [stop, if_neg h0]
    exact ih

/-- C6: in every reachable state, `isPaused` can be true only while
`startTime ≠ 0`, and while Stopped (`startTime = 0`) a tick does
nothing: no frame subscriber fires and no next tick is requested. -/
theorem lifecycle_invariants (a : State) (t : ℚ) (ha : Reachable a) :
    (a.isPaused = true → a.startTime ≠ 0) ∧
    (a.startTime = 0 → animate t a = (a, [])) := by
  constructor
  · induction ha with
    | init p =>
      intro h
      exact Bool.noConfusion h
    | ofStart u _ ih => exact inv_pres_start u _ ih
    | ofPause _ ih => exact inv_pres_pause _ ih
    | ofResume u _ ih => exact inv_pres_resume u _ ih
    | ofStop _ ih => exact inv_pres_stop _ ih
    | ofAnimate u _ ih =>
      rename_i b _
      have h1 := (animate_fields_eq b u).1
      have h2 := (animate_fields_eq b u).2.1
      rw [h1, h2]
      exact ih
    | ofHidden _ ih =>
      rename_i b _
      by_cases h0 : b.pauseOnHidden = true
      · simp only [onHidden, if_pos h0]
        exact inv_pres_pause _ ih
      · simp only [onHidden, if_neg h0]
        exact ih
    | ofShow u _ ih =>
      rename_i b _
      by_cases h0 : b.resumeOnShown = true
      · simp only [onShow, if_pos h0]
        exact inv_pres_resume u _ ih
      · simp only [onShow, if_neg h0]
        exact ih
    | ofSetTargetFPS r _ ih => exact ih
    | ofSetPauseOnHidden b _ ih => exact ih
    | ofSetResumeOnShown b _ ih => exact ih
    | ofAdd e _ ih => exact ih
    | ofOnStartSub e _ ih => exact ih
    | ofOnPauseSub e _ ih => exact ih
    | ofOnResumeSub e _ ih => exact ih
    | ofOnStopSub e _ ih => exact ih
    | ofUnsubAnimate e _ ih => exact ih
    | ofUnsubStart e _ ih => exact ih
    | ofUnsubPause e _ ih => exact ih
    | ofUnsubResume e _ ih => exact ih
    | ofUnsubStop e _ ih => exact ih
  · intro h0
    refine animate_idle_eq a t ?_
    rintro ⟨-, -, h3⟩
    rw [h0] at h3
    exact absurd h3 (lt_irrefl 0)

/-- The reachable state: construct with defaults, start at 5, pause. -/
def samplePausedReach : State :=
  (pause (start 5 (mkAnimator {})).1).1

theorem lifecycle_invariants_witness :
    samplePausedReach.startTime ≠ 0 ∧
    animate 9 (mkAnimator {}) = (mkAnimator {}, []) := by
  constructor
  · exact (lifecycle_invariants samplePausedReach 9
      (Reachable.ofPause (Reachable.ofStart 5 (Reachable.init {})))).1 rfl
  · exact (lifecycle_invariants (mkAnimator {}) 9 (Reachable.init {})).2 rfl

/-- The state `startAnimation h t {fps: 30}` leaves behind: constructed
with a 30 fps target, frame handler `h` subscribed, both timestamps
recorded as the start time `t`. -/
def started30 (h : ℕ) (t : ℚ) : State :=
  { add h (mkAnimator { fps := some 30 }) with
      startTime := t, previousAnimateTime := t }

/-- Helper: `startAnimation` with 30 fps at a positive time `t` records
the timestamps and runs one synchronous tick that does not fire (its
delta 0 is below the minimum interval), yielding `started30` and a
single reschedule request. -/
theorem startAnimation30_eq (h : ℕ) (t : ℚ) (ht : 0 < t) :
    startAnimation h t { fps := some 30 } = (started30 h t, [Fire.resched]) := by
  have hskip : animate t (started30 h t) = (started30 h t, [Fire.resched]) := by
    refine animate_skip_eq (started30 h t) t
      ⟨(by norm_num : (0 : ℚ) < 30), rfl, ht⟩ ?_
    rintro (hc | hc)
    · exact Bool.noConfusion hc
    · have hc' : (1000 : ℚ) / 30 ≤ t - t := hc
      rw [sub_self] at hc'
      norm_num at hc'
  have h0 : (add h (mkAnimator { fps := some 30 })).startTime = 0 := rfl
  simp only [startAnimation, start, if_pos h0]
  show ((animate t (started30 h t)).1,
      List.map Fire.start (add h (mkAnimator { fps := some 30 })).startEvents ++
        (animate t (started30 h t)).2) = (started30 h t, [Fire.resched])
  rw [hskip]
  rfl

/-- C7 counterexample: after `startAnimation(h, {fps: 30})` at time 1000,
neither the synchronous first tick nor the tick 33 ms later invokes the
handler: both traces are exactly `[Fire.resched]`, because the elapsed
33 ms is strictly less than the minimum interval `1000 / 30 ≈ 33.33`. -/
theorem startAnimation_33ms_cex :
    (startAnimation 7 1000 { fps := some 30 }).2 = [Fire.resched] ∧
    (animate 1033 (startAnimation 7 1000 { fps := some 30 }).1).2 = [Fire.resched] ∧
    (1033 : ℚ) - 1000 < 1000 / 30 := by
  have hb := startAnimation30_eq 7 1000 (by norm_num)
  have hskip2 : animate 1033 (started30 7 1000) = (started30 7 1000, [Fire.resched]) := by
    refine animate_skip_eq (started30 7 1000) 1033
      ⟨(by norm_num : (0 : ℚ) < 30), rfl, (by norm_num : (0 : ℚ) < 1000)⟩ ?_
    rintro (hc | hc)
    · exact Bool.noConfusion hc
    · have hc' : (1000 : ℚ) / 30 ≤ 1033 - 1000 := hc
      norm_num at hc'
  refine ⟨?_, ?_, by norm_num⟩
  · rw [hb]
  · rw [hb]
    show (animate 1033 (started30 7 1000)).2 = [Fire.resched]
    rw [hskip2]

/-- C7 amended: after `startAnimation(h, {fps: 30})` at any positive
time `t`, advancing the clock by exactly `1000 / 30` ms (the 33.33 ms
minimum interval — between 33 and 34 ms) makes the tick invoke the
handler exactly once, with delta `1000 / 30`. -/
theorem startAnimation_throttle_amended (h : ℕ) (t : ℚ) (ht : 0 < t) :
    (animate (t + 1000 / 30) (startAnimation h t { fps := some 30 }).1).2 =
      [Fire.resched, Fire.frame h (1000 / 30)] ∧
    (33 : ℚ) ≤ 1000 / 30 ∧ (1000 : ℚ) / 30 ≤ 34 := by
  refine ⟨?_, by norm_num, by norm_num⟩
  have hb := startAnimation30_eq h t ht
  have hδ : t + 1000 / 30 - t = (1000 : ℚ) / 30 := by ring
  have hle : (1000 : ℚ) / 30 ≤ t + 1000 / 30 - t := by
    rw [hδ]
  have hfire := animate_fire_eq (started30 h t) (t + 1000 / 30)
    ⟨(by norm_num : (0 : ℚ) < 30), rfl, ht⟩ (Or.inr hle)
  rw [hb]
  show (animate (t + 1000 / 30) (started30 h t)).2 =
    [Fire.resched, Fire.frame h (1000 / 30)]
  rw [hfire]
  show [Fire.resched, Fire.frame h (t + 1000 / 30 - t)] =
    [Fire.resched, Fire.frame h (1000 / 30)]
  rw [hδ]

theorem startAnimation_throttle_amended_witness :
    (animate (1000 + 1000 / 30) (startAnimation 7 1000 { fps := some 30 }).1).2 =
      [Fire.resched, Fire.frame 7 (1000 / 30)] ∧
    (33 : ℚ) ≤ 1000 / 30 ∧ (1000 : ℚ) / 30 ≤ 34 :=
  startAnimation_throttle_amended 7 1000 (by decide)

/-- Helper: `start` outside its guard is a no-op. -/
theorem start_noop (b : State) (u : ℚ) (hb : ¬ b.startTime = 0) :
    start u b = (b, []) := by
  simp only [start, if_neg hb]

/-- Helper: `pause` outside its guard is a no-op. -/
theorem pause_noop (b : State) (hb : ¬ (0 < b.startTime ∧ b.isPaused = false)) :
    pause b = (b, []) := by
  simp only [pause, if_neg hb]

/-- Helper: `resume` outside its guard is a no-op. -/
theorem resume_noop (b : State) (u : ℚ)
    (hb : ¬ (b.isPauseRequested = false ∧ b.isPaused = true)) :
    resume u b = (b, []) := by
  simp only [resume, if_neg hb]

/-- Helper: `stop` outside its guard is a no-op. -/
theorem stop_noop (b : State) (hb : ¬ 0 < b.startTime) :
    stop b = (b, []) := by
  simp only [stop, if_neg hb]

/-- C8 counterexample: `subscribe` is a public operation, yet subscribing
the same frame handler twice in immediate succession is observably
different from subscribing it once — the handler is now registered twice
and the first tick after `start` invokes it twice. -/
theorem double_subscribe_cex :
    add 7 (add 7 (mkAnimator {})) ≠ add 7 (mkAnimator {}) ∧
    (add 7 (add 7 (mkAnimator {}))).animateEvents = [7, 7] ∧
    (start 5 (add 7 (add 7 (mkAnimator {})))).2 =
      [Fire.resched, Fire.frame 7 (5 - 5), Fire.frame 7 (5 - 5)] ∧
    (start 5 (add 7 (mkAnimator {}))).2 = [Fire.resched, Fire.frame 7 (5 - 5)] := by
  refine ⟨?_, rfl, rfl, rfl⟩
  intro hcontra
  have h : ([7, 7] : List ℕ) = [7] := congrArg State.animateEvents hcontra
  exact absurd h (by decide)

/-- C8 amended: every lifecycle operation and every setter is idempotent —
a second immediate `start`/`pause`/`resume`/`stop` changes nothing and
fires no subscriber, and repeating a setter call yields the same state;
`subscribe`, however, is excluded: each subscription appends an
independent registry entry. -/
theorem lifecycle_idempotent (a : State) (t u r : ℚ) (b : Bool) (ht : 0 < t) :
    start u (start t a).1 = ((start t a).1, []) ∧
    pause (pause a).1 = ((pause a).1, []) ∧
    resume u (resume t a).1 = ((resume t a).1, []) ∧
    stop (stop a).1 = ((stop a).1, []) ∧
    setTargetFPS r (setTargetFPS r a) = setTargetFPS r a ∧
    setPauseOnHidden b (setPauseOnHidden b a) = setPauseOnHidden b a ∧
    setResumeOnShown b (setResumeOnShown b a) = setResumeOnShown b a := by
  refine ⟨?_, ?_, ?_, ?_, rfl, rfl, rfl⟩
  · by_cases h0 : a.startTime = 0
    · have hTime : (start t a).1.startTime = t := by
        simp only [start, if_pos h0]
        exact (animate_fields_eq _ t).1
      refine start_noop _ u ?_
      rw [hTime]
      exact ne_of_gt ht
    · have h1 : (start t a).1 = a := by
        simp only [start, if_neg h0]
      rw [h1]
      exact start_noop a u h0
  · by_cases h0 : 0 < a.startTime ∧ a.isPaused = false
    · have h1 : (pause a).1 = { a with isPaused := true } := by
        simp only [pause, if_pos h0]
      rw [h1]
      refine pause_noop _ ?_
      rintro ⟨-, h2⟩
      exact Bool.noConfusion h2
    · have h1 : (pause a).1 = a := by
        simp only [pause, if_neg h0]
      rw [h1]
      exact pause_noop a h0
  · by_cases h0 : a.isPauseRequested = false ∧ a.isPaused = true
    · have hP : (resume t a).1.isPaused = false := by
        simp only [resume, if_pos h0]
        exact (animate_fields_eq _ t).2.1
      refine resume_noop _ u ?_
      rintro ⟨-, h2⟩
      rw [hP] at h2
      exact Bool.noConfusion h2
    · have h1 : (resume t a).1 = a := by
        simp only [resume, if_neg h0]
      rw [h1]
      exact resume_noop a u h0
  · by_cases h0 : 0 < a.startTime
    · have h1 : (stop a).1 = { a with startTime := 0, isPaused := false } := by
        simp only [stop, if_pos h0]
      rw [h1]
      refine stop_noop _ ?_
      intro h2
      have h2' : (0 : ℚ) < 0 := h2
      exact absurd h2' (lt_irrefl 0)
    · have h1 : (stop a).1 = a := by
        simp only [stop, if_neg h0]
      rw [h1]
      exact stop_noop a h0

theorem lifecycle_idempotent_witness :
    start 9 (start 5 (mkAnimator {})).1 = ((start 5 (mkAnimator {})).1, []) ∧
    pause (pause (mkAnimator {})).1 = ((pause (mkAnimator {})).1, []) ∧
    resume 9 (resume 5 (mkAnimator {})).1 = ((resume 5 (mkAnimator {})).1, []) ∧
    stop (stop (mkAnimator {})).1 = ((stop (mkAnimator {})).1, []) ∧
    setTargetFPS 30 (setTargetFPS 30 (mkAnimator {})) = setTargetFPS 30 (mkAnimator {}) ∧
    setPauseOnHidden false (setPauseOnHidden false (mkAnimator {})) =
      setPauseOnHidden false (mkAnimator {}) ∧
    setResumeOnShown false (setResumeOnShown false (mkAnimator {})) =
      setResumeOnShown false (mkAnimator {}) :=
  lifecycle_idempotent (mkAnimator {}) 5 9 30 false (by decide)

/-- Helper: removing an unregistered handler leaves the registry
unchanged. -/
theorem removeEvent_not_mem (e : ℕ) (l : List ℕ) (hl : e ∉ l) :
    removeEvent e l = l := by
  induction l with
  | nil => rfl
  | cons x xs ih =>
    have hx : ¬ x = e := fun hx => hl (hx ▸ List.mem_cons_self x xs)
    simp only [removeEvent, if_neg hx]
    rw [ih fun hm => hl (List.mem_cons_of_mem x hm)]

/-- Helper: appending a handler and then removing it restores the
registry, provided it was not already registered. -/
theorem removeEvent_addEvent (e : ℕ) (l : List ℕ) (hl : e ∉ l) :
    removeEvent e (addEvent e l) = l := by
  induction l with
  | nil => simp [addEvent, removeEvent]
  | cons x xs ih =>
    have hx : ¬ x = e := fun hx => hl (hx ▸ List.mem_cons_self x xs)
    have ih' := ih fun hm => hl (List.mem_cons_of_mem x hm)
    show (if x = e then xs ++ [e] else x :: removeEvent e (xs ++ [e])) = x :: xs
    rw [if_neg hx, show removeEvent e (xs ++ [e]) = xs from ih']

/-- Helper: a tick's trace holds only reschedule requests and frame
fires. -/
theorem animate_trace_shape (a : State) (t : ℚ) (f : Fire)
    (hm : f ∈ (animate t a).2) :
    f = Fire.resched ∨ ∃ e d, f = Fire.frame e d := by
  by_cases hg : 0 < a.targetFPS ∧ a.isPaused = false ∧ 0 < a.startTime
  · by_cases hc : a.ignoreTargetFPS = true ∨ 1000 / a.targetFPS ≤ t - a.previousAnimateTime
    · rw [animate_fire_eq a t hg hc] at hm
      rcases List.mem_cons.mp hm with h | h
      · exact Or.inl h
      · rcases List.mem_map.mp h with ⟨x, -, hfx⟩
        exact Or.inr ⟨x, t - a.previousAnimateTime, hfx.symm⟩
    · rw [animate_skip_eq a t hg hc] at hm
      exact Or.inl (List.mem_singleton.mp hm)
  · rw [animate_idle_eq a t hg] at hm
    exact absurd hm (List.not_mem_nil f)

/-- Helper: a frame fire in a tick's trace names a registered frame
subscriber. -/
theorem frame_mem_animate (a : State) (t d : ℚ) (e : ℕ)
    (hm : Fire.frame e d ∈ (animate t a).2) : e ∈ a.animateEvents := by
  by_cases hg : 0 < a.targetFPS ∧ a.isPaused = false ∧ 0 < a.startTime
  · by_cases hc : a.ignoreTargetFPS = true ∨ 1000 / a.targetFPS ≤ t - a.previousAnimateTime
    · rw [animate_fire_eq a t hg hc] at hm
      rcases List.mem_cons.mp hm with h | h
      · exact Fire.noConfusion h
      · rcases List.mem_map.mp h with ⟨x, hx, hfx⟩
        injection hfx with h1 h2
        exact h1 ▸ hx
    · rw [animate_skip_eq a t hg hc] at hm
      exact Fire.noConfusion (List.mem_singleton.mp hm)
  · rw [animate_idle_eq a t hg] at hm
    exact absurd hm (List.not_mem_nil _)

/-- Helper: a start fire in a `start` trace names a registered start
subscriber. -/
theorem startFire_mem (a : State) (t : ℚ) (e : ℕ)
    (hm : Fire.start e ∈ (start t a).2) : e ∈ a.startEvents := by
  by_cases h0 : a.startTime = 0
  · simp only [start, if_pos h0] at hm
    rcases List.mem_append.mp hm with h | h
    · rcases List.mem_map.mp h with ⟨x, hx, hfx⟩
      injection hfx with h1
      exact h1 ▸ hx
    · rcases animate_trace_shape _ t _ h with h2 | ⟨x, d, h2⟩
      · exact Fire.noConfusion h2
      · exact Fire.noConfusion h2
  · simp only [start, if_neg h0] at hm
    exact absurd hm (List.not_mem_nil _)

/-- Helper: a pause fire in a `pause` trace names a registered pause
subscriber. -/
theorem pauseFire_mem (a : State) (e : ℕ)
    (hm : Fire.pause e ∈ (pause a).2) : e ∈ a.pauseEvents := by
  by_cases h0 : 0 < a.startTime ∧ a.isPaused = false
  · simp only [pause, if_pos h0] at hm
    rcases List.mem_map.mp hm with ⟨x, hx, hfx⟩
    injection hfx with h1
    exact h1 ▸ hx
  · simp only [pause, if_neg h0] at hm
    exact absurd hm (List.not_mem_nil _)

/-- Helper: a resume fire in a `resume` trace names a registered resume
subscriber. -/
theorem resumeFire_mem (a : State) (t : ℚ) (e : ℕ)
    (hm : Fire.resume e ∈ (resume t a).2) : e ∈ a.resumeEvents := by
  by_cases h0 : a.isPauseRequested = false ∧ a.isPaused = true
  · simp only [resume, if_pos h0] at hm
    rcases List.mem_append.mp hm with h | h
    · rcases List.mem_map.mp h with ⟨x, hx, hfx⟩
      injection hfx with h1
      exact h1 ▸ hx
    · rcases animate_trace_shape _ t _ h with h2 | ⟨x, d, h2⟩
      · exact Fire.noConfusion h2
      · exact Fire.noConfusion h2
  · simp only [resume, if_neg h0] at hm
    exact absurd hm (List.not_mem_nil _)

/-- Helper: a stop fire in a `stop` trace names a registered stop
subscriber. -/
theorem stopFire_mem (a : State) (e : ℕ)
    (hm : Fire.stop e ∈ (stop a).2) : e ∈ a.stopEvents := by
  by_cases h0 : 0 < a.startTime
  · simp only [stop, if_pos h0] at hm
    rcases List.mem_map.mp hm with ⟨x, hx, hfx⟩
    injection hfx with h1
    exact h1 ▸ hx
  · simp only [stop, if_neg h0] at hm
    exact absurd hm (List.not_mem_nil _)

/-- C9: for every handler and every one of the five registries,
subscribing and then immediately invoking the returned unsubscribe
closure restores the registry (when the handler was not independently
registered), and triggering that registry's event afterwards never
invokes the handler; removing an unregistered handler is a no-op. -/
theorem unsubscribe_roundtrip (e : ℕ) (a : State) (t d : ℚ) :
    (∀ l : List ℕ, e ∉ l → removeEvent e l = l) ∧
    (∀ l : List ℕ, e ∉ l → removeEvent e (addEvent e l) = l) ∧
    (e ∉ a.animateEvents →
      Fire.frame e d ∉
        (animate t
          { a with animateEvents := removeEvent e (addEvent e a.animateEvents) }).2) ∧
    (e ∉ a.startEvents →
      Fire.start e ∉
        (start t { a with startEvents := removeEvent e (addEvent e a.startEvents) }).2) ∧
    (e ∉ a.pauseEvents →
      Fire.pause e ∉
        (pause { a with pauseEvents := removeEvent e (addEvent e a.pauseEvents) }).2) ∧
    (e ∉ a.resumeEvents →
      Fire.resume e ∉
        (resume t { a with resumeEvents := removeEvent e (addEvent e a.resumeEvents) }).2) ∧
    (e ∉ a.stopEvents →
      Fire.stop e ∉
        (stop { a with stopEvents := removeEvent e (addEvent e a.stopEvents) }).2) := by
  refine ⟨removeEvent_not_mem e, removeEvent_addEvent e, ?_, ?_, ?_, ?_, ?_⟩
  · intro h hm
    rw [removeEvent_addEvent e _ h] at hm
    exact h (frame_mem_animate _ t d e hm)
  · intro h hm
    rw [removeEvent_addEvent e _ h] at hm
    exact h (startFire_mem _ t e hm)
  · intro h hm
    rw [removeEvent_addEvent e _ h] at hm
    exact h (pauseFire_mem _ e hm)
  · intro h hm
    rw [removeEvent_addEvent e _ h] at hm
    exact h (resumeFire_mem _ t e hm)
  · intro h hm
    rw [removeEvent_addEvent e _ h] at hm
    exact h (stopFire_mem _ e hm)

theorem unsubscribe_roundtrip_witness :
    removeEvent 7 [3] = [3] ∧
    removeEvent 7 (addEvent 7 [3]) = [3] ∧
    Fire.frame 7 0 ∉
      (animate 5
        { mkAnimator {} with
            animateEvents := removeEvent 7 (addEvent 7 (mkAnimator {}).animateEvents) }).2 := by
  have h := unsubscribe_roundtrip 7 (mkAnimator {}) 5 0
  exact ⟨h.1 [3] (by decide), h.2.1 [3] (by decide), h.2.2.1 (by decide)⟩

end Animator
